import Mathlib

/-!
Verification of the tcping-mcp probing engine against its specification.

The development shallowly embeds the TypeScript sources:
  - src/utils/validators.ts (host and port validation),
  - src/utils/tcp.ts (single-probe connector and the tcping aggregator),
  - src/index.ts (the tcping, firewall-rule and network-scan handlers).
Regular expressions from the source are translated into structural
recognizers over character lists; asynchronous socket callbacks are
modelled by an explicit event describing which callback fires first.
-/

namespace TcpingMcp

/-- Splits a character list at every occurrence of the separator.  This is the
semantics of the JavaScript single-character String.split used throughout
src/utils/validators.ts; an empty input yields one empty part. -/
def splitOnChar (sep : Char) : List Char → List (List Char)
  | [] => [[]]
  | c :: rest =>
    match splitOnChar sep rest with
    | [] => [[]]
    | h :: t => if c == sep then [] :: h :: t else (c :: h) :: t

/-- Character class of decimal digits, written in the source regexes as a
backslash-d class. -/
def isDigitChar (c : Char) : Bool := decide ('0' ≤ c) && decide (c ≤ '9')

/-- Character class [a-z]. -/
def isLowerAlpha (c : Char) : Bool := decide ('a' ≤ c) && decide (c ≤ 'z')

/-- Character class [A-Z]. -/
def isUpperAlpha (c : Char) : Bool := decide ('A' ≤ c) && decide (c ≤ 'Z')

/-- Character class [a-zA-Z0-9]. -/
def isAlnumChar (c : Char) : Bool := isDigitChar c || isLowerAlpha c || isUpperAlpha c

/-- Character class [0-9a-fA-F] of hexadecimal digits from the IPv6 regex in
src/utils/validators.ts. -/
def isHexChar (c : Char) : Bool :=
  isDigitChar c || (decide ('a' ≤ c) && decide (c ≤ 'f')) || (decide ('A' ≤ c) && decide (c ≤ 'F'))

/-- parseInt(s, 10) restricted to all-digit strings, which is the only way the
source applies it (to IPv4 octet substrings captured by a digit-only regex). -/
def parseDecimal (cs : List Char) : Nat :=
  cs.foldl (fun n c => n * 10 + (c.toNat - '0'.toNat)) 0

/-- Recognizer for one IPv4 octet field of the source pattern: one to three
decimal digits. -/
def isOctetStr (cs : List Char) : Bool :=
  decide (1 ≤ cs.length) && decide (cs.length ≤ 3) && cs.all isDigitChar

/-- Recognizer for the anchored IPv4 pattern of src/utils/validators.ts line 13:
exactly four dot-separated fields of one to three digits. -/
def matchesIpv4Pattern (host : List Char) : Bool :=
  let parts := splitOnChar '.' host
  decide (parts.length = 4) && parts.all isOctetStr

/-- Body of the IPv4 branch of isValidHost (src/utils/validators.ts lines
16-30): recheck the dot count, then require every octet value to be at most
255.  The source also rejects negative octets; parseInt of a digit string is
never negative, which the Nat codomain of parseDecimal records by type. -/
def ipv4OctetsCheck (host : List Char) : Bool :=
  let parts := splitOnChar '.' host
  if !(decide (parts.length = 4)) then false
  else parts.all (fun p => decide (parseDecimal p ≤ 255))

/-- Hostname label of the simplified hostname regex (validators.ts line 51):
a single alphanumeric character, or an alphanumeric character followed by
alphanumeric-or-hyphen characters ending in an alphanumeric character.
isLabelTail accepts exactly the empty continuation or a hyphen-permitting
middle that ends alphanumeric. -/
def isLabelTail : List Char → Bool
  | [] => true
  | [c] => isAlnumChar c
  | c :: rest => (isAlnumChar c || c == '-') && isLabelTail rest

/-- Full hostname label recognizer, see isLabelTail. -/
def isLabelStr : List Char → Bool
  | [] => false
  | c :: rest => isAlnumChar c && isLabelTail rest

/-- Anchored hostname regex of validators.ts line 51: dot-separated labels,
each matching isLabelStr. -/
def matchesHostnameRegex (host : List Char) : Bool :=
  (splitOnChar '.' host).all isLabelStr

/-- Incomplete-IPv4 screening of validators.ts line 40: the host matches the
anchored pattern of one to four dot-separated 1-3 digit fields, and the dot
split yields fewer than four fields. -/
def incompleteIpv4Check (host : List Char) : Bool :=
  let parts := splitOnChar '.' host
  (parts.all isOctetStr && decide (parts.length ≤ 4)) && decide (parts.length < 4)

/-- Too-many-octets screening of validators.ts line 45: five or more
dot-separated 1-3 digit fields. -/
def tooManyOctetsCheck (host : List Char) : Bool :=
  let parts := splitOnChar '.' host
  parts.all isOctetStr && decide (5 ≤ parts.length)

/-- Hex group [0-9a-fA-F]{1,4} of the IPv6 regex. -/
def isHexGroup (cs : List Char) : Bool :=
  decide (1 ≤ cs.length) && decide (cs.length ≤ 4) && cs.all isHexChar

/-- Hex group [0-9a-fA-F]{0,4}, used in the fe80 zone alternative. -/
def isHexGroup0to4 (cs : List Char) : Bool :=
  decide (cs.length ≤ 4) && cs.all isHexChar

/-- Literal run 0{1,4} of the IPv4-mapped alternative. -/
def isZeros1to4 (cs : List Char) : Bool :=
  decide (1 ≤ cs.length) && decide (cs.length ≤ 4) && cs.all (· == '0')

/-- Zone identifier [0-9a-zA-Z]{1,} of the fe80 alternative. -/
def isZoneStr (cs : List Char) : Bool :=
  decide (1 ≤ cs.length) && cs.all isAlnumChar

/-- Strict dotted-decimal octet of the IPv6 regex, pattern
25[0-5]|(2[0-4]|1{0,1}[0-9]){0,1}[0-9]: any one or two digit string, or a
three digit string with value at most 255 not starting with 0. -/
def isStrictV4Octet (cs : List Char) : Bool :=
  cs.all isDigitChar &&
    (decide (cs.length = 1) || decide (cs.length = 2) ||
      (decide (cs.length = 3) && decide (parseDecimal cs ≤ 255) &&
        (match cs with
         | c :: _ => !(c == '0')
         | [] => false)))

/-- Strict dotted quad of the IPv6 regex: four dot-separated strict octets. -/
def isStrictV4 (cs : List Char) : Bool :=
  let ps := splitOnChar '.' cs
  decide (ps.length = 4) && ps.all isStrictV4Octet

/-- Finds the first empty part of a colon split and returns the parts before
and after it.  A full match of a regex alternative of the shape
(H:){j}(:H){k} corresponds to a colon split of the form hs ++ [[]] ++ gs with
all of hs and gs nonempty hex groups, and this function recovers that unique
decomposition. -/
def splitAtFirstEmpty : List (List Char) → Option (List (List Char) × List (List Char))
  | [] => none
  | h :: t =>
    if h.isEmpty then some ([], t)
    else
      match splitAtFirstEmpty t with
      | none => none
      | some (a, b) => some (h :: a, b)

/-- IPv6 alternative 1, ([0-9a-fA-F]{1,4}:){7,7}[0-9a-fA-F]{1,4}: eight
colon-separated hex groups. -/
def ipv6Alt1 (cs : List (List Char)) : Bool :=
  decide (cs.length = 8) && cs.all isHexGroup

/-- IPv6 alternative 2, ([0-9a-fA-F]{1,4}:){1,7}: — one to seven hex groups
each followed by a colon, then a final colon; the colon split therefore ends
with two empty parts preceded by the groups. -/
def ipv6Alt2 (cs : List (List Char)) : Bool :=
  match cs.reverse with
  | [] :: [] :: hsRev =>
    hsRev.all isHexGroup && decide (1 ≤ hsRev.length) && decide (hsRev.length ≤ 7)
  | _ => false

/-- Middle-compression IPv6 alternatives of the shape
([0-9a-fA-F]{1,4}:){lo1..hi1}(:[0-9a-fA-F]{1,4}){lo2..hi2}: the colon split is
hs ++ [[]] ++ gs with the group counts within the stated bounds. -/
def ipv6MidForm (lo1 hi1 lo2 hi2 : Nat) (cs : List (List Char)) : Bool :=
  match splitAtFirstEmpty cs with
  | none => false
  | some (hs, gs) =>
    hs.all isHexGroup && gs.all isHexGroup &&
      decide (lo1 ≤ hs.length) && decide (hs.length ≤ hi1) &&
      decide (lo2 ≤ gs.length) && decide (gs.length ≤ hi2)

/-- IPv6 alternative 9, :((:[0-9a-fA-F]{1,4}){1,7}|:): a leading double colon
followed by one to seven hex groups, or the bare double colon. -/
def ipv6Alt9 (cs : List (List Char)) : Bool :=
  match cs with
  | [] :: [] :: rest =>
    (match rest with
     | [[]] => true
     | _ => false) ||
    (rest.all isHexGroup && decide (1 ≤ rest.length) && decide (rest.length ≤ 7))
  | _ => false

/-- IPv6 alternative 10, fe80:(:[0-9a-fA-F]{0,4}){0,4}%[0-9a-zA-Z]{1,}: a
link-local address with zone.  The percent sign splits the host into the
address part and the zone; the address part must be the literal fe80
followed by a colon and zero to four groups each introduced by a colon. -/
def ipv6Alt10 (host : List Char) : Bool :=
  match splitOnChar '%' host with
  | [pre, zone] =>
    isZoneStr zone &&
      (match splitOnChar ':' pre with
       | f :: e :: ds =>
         (f == ['f', 'e', '8', '0']) && e.isEmpty &&
           decide (ds.length ≤ 4) && ds.all isHexGroup0to4
       | _ => false)
  | _ => false

/-- IPv6 alternative 11, ::(ffff(:0{1,4}){0,1}:){0,1}(dotted quad): an
IPv4-mapped address.  After the leading double colon the colon split leaves
either the quad alone, ffff then the quad, or ffff, a zero run and the
quad. -/
def ipv6Alt11 (cs : List (List Char)) : Bool :=
  match cs with
  | [] :: [] :: rest =>
    (match rest with
     | [v4] => isStrictV4 v4
     | [f, v4] => (f == ['f', 'f', 'f', 'f']) && isStrictV4 v4
     | [f, z, v4] => (f == ['f', 'f', 'f', 'f']) && isZeros1to4 z && isStrictV4 v4
     | _ => false)
  | _ => false

/-- IPv6 alternative 12, ([0-9a-fA-F]{1,4}:){1,4}:(dotted quad): one to four
hex groups, a compression, then an embedded dotted quad. -/
def ipv6Alt12 (cs : List (List Char)) : Bool :=
  match splitAtFirstEmpty cs with
  | some (hs, [v4]) =>
    hs.all isHexGroup && decide (1 ≤ hs.length) && decide (hs.length ≤ 4) && isStrictV4 v4
  | _ => false

/-- Full anchored IPv6 regex of src/utils/validators.ts line 33, as the
disjunction of its twelve alternatives in source order. -/
def matchesIpv6Regex (host : List Char) : Bool :=
  let cs := splitOnChar ':' host
  ipv6Alt1 cs || ipv6Alt2 cs ||
    ipv6MidForm 1 6 1 1 cs || ipv6MidForm 1 5 1 2 cs || ipv6MidForm 1 4 1 3 cs ||
    ipv6MidForm 1 3 1 4 cs || ipv6MidForm 1 2 1 5 cs || ipv6MidForm 1 1 1 6 cs ||
    ipv6Alt9 cs || ipv6Alt10 host || ipv6Alt11 cs || ipv6Alt12 cs

/-- isValidHost of src/utils/validators.ts lines 7-54 on character lists:
an empty host fails; an IPv4-shaped host is decided by its octet values; an
IPv6 match succeeds; incomplete or oversized dotted-decimal strings fail; any
remaining host is decided by the hostname regex. -/
def isValidHostL (host : List Char) : Bool :=
  if host.isEmpty then false
  else if matchesIpv4Pattern host then ipv4OctetsCheck host
  else if matchesIpv6Regex host then true
  else if incompleteIpv4Check host then false
  else if tooManyOctetsCheck host then false
  else matchesHostnameRegex host

/-- isValidHost on strings. -/
def isValidHost (host : String) : Bool := isValidHostL host.data

/-- isValidPort of src/utils/validators.ts lines 62-64.  Ports are modelled as
integers, which carries the Number.isInteger conjunct of the source by type;
the remaining test is the range check. -/
def isValidPort (port : Int) : Bool :=
  decide (1 ≤ port) && decide (port ≤ 65535)

/-- Result record of validateConnection. -/
structure ValidationResult where
  isValid : Bool
  error : Option String
deriving DecidableEq, Repr

/-- validateConnection of src/utils/validators.ts lines 73-87: an empty host
is reported first, then a malformed host, then an out-of-range port. -/
def validateConnection (host : String) (port : Int) : ValidationResult :=
  if host.data.isEmpty then
    { isValid := false, error := some "Host must be a non-empty string" }
  else if !(isValidHost host) then
    { isValid := false, error := some "Invalid hostname or IP address format" }
  else if !(isValidPort port) then
    { isValid := false, error := some "Port must be an integer between 1 and 65535" }
  else
    { isValid := true, error := none }

/-- Event describing which of the three socket callbacks of tcpConnect
(src/utils/tcp.ts lines 11-43) fires first for one probe: the connect
callback after a measured number of milliseconds, the error callback with the
error message of the failure, or the timeout timer. -/
inductive ConnectEvent where
  | connected (elapsedMs : Nat)
  | errored (message : String)
  | timedOut
deriving DecidableEq, Repr

/-- Resolution value of the tcpConnect promise (src/utils/tcp.ts): success
flag, optional response time and optional error message. -/
structure ProbeOutcome where
  success : Bool
  responseTime : Option Nat
  error : Option String
deriving DecidableEq, Repr

/-- tcpConnect of src/utils/tcp.ts lines 11-43.  Whichever callback fires
first resolves the promise: the timeout handler resolves with the fixed
timeout message, the connect callback resolves successfully with the elapsed
time, and the error callback resolves with the underlying message.  Every
path destroys the socket before resolving. -/
def tcpConnect (timeout : Nat) (ev : ConnectEvent) : ProbeOutcome :=
  match ev with
  | .timedOut =>
    { success := false, responseTime := none,
      error := some ("Connection timeout after " ++ toString timeout ++ "ms") }
  | .connected t =>
    { success := true, responseTime := some t, error := none }
  | .errored msg =>
    { success := false, responseTime := none, error := some msg }

/-- JavaScript truthiness of an optional number, as used by the filters and
conditionals of src/utils/tcp.ts and src/index.ts: undefined and 0 are falsy,
every other number is truthy. -/
def truthyNat (o : Option Nat) : Bool :=
  match o with
  | none => false
  | some n => !(n == 0)

/-- Math.round(sum / len) for natural sum and positive natural len: JavaScript
rounds half toward positive infinity, which on nonnegative rationals is the
floor of sum / len + 1 / 2 = (2 * sum + len) / (2 * len). -/
def jsRoundDiv (sum len : Nat) : Nat :=
  (2 * sum + len) / (2 * len)

/-- Math.min over a spread nonempty array, folded from the head; the source
only applies it under a nonemptiness guard, and the 0 returned on the
unreachable empty case is never used. -/
def foldMin : List Nat → Nat
  | [] => 0
  | h :: t => t.foldl Nat.min h

/-- Math.max over a spread nonempty array, see foldMin. -/
def foldMax : List Nat → Nat
  | [] => 0
  | h :: t => t.foldl Nat.max h

/-- Result record of the tcping aggregator (src/utils/tcp.ts lines 77-87). -/
structure TcpingResult where
  host : String
  port : Int
  success : Bool
  attempts : Int
  successfulAttempts : Nat
  averageTime : Option Nat
  minTime : Option Nat
  maxTime : Option Nat
  results : List ProbeOutcome
deriving DecidableEq, Repr

/-- tcping of src/utils/tcp.ts lines 55-88.  The loop performs one tcpConnect
call per iteration for count iterations (none when count is not positive);
the event function gives the callback outcome of the i-th probe.  The
inter-attempt setTimeout delay does not affect the returned value and has no
counterpart in the embedding.  Note that the source never consults
validateConnection.  responseTimes keeps the attempts whose responseTime is
truthy, so a 0 ms success is excluded. -/
def tcping (host : String) (port : Int) (timeout : Nat) (count : Int)
    (events : Nat → ConnectEvent) : TcpingResult :=
  let results := (List.range count.toNat).map (fun i => tcpConnect timeout (events i))
  let successfulAttempts := (results.filter (fun r => r.success)).length
  let responseTimes :=
    (results.filter (fun r => truthyNat r.responseTime)).map (fun r => r.responseTime.getD 0)
  { host := host
    port := port
    success := decide (0 < successfulAttempts)
    attempts := count
    successfulAttempts := successfulAttempts
    averageTime :=
      if 0 < responseTimes.length then some (jsRoundDiv responseTimes.sum responseTimes.length)
      else none
    minTime := if 0 < responseTimes.length then some (foldMin responseTimes) else none
    maxTime := if 0 < responseTimes.length then some (foldMax responseTimes) else none
    results := results }

/-- String of n copies of a character, modelling the JavaScript repeat calls
that draw separator lines in src/index.ts. -/
def repeatChar (c : Char) (n : Nat) : String := String.mk (List.replicate n c)

/-- Rendering of an optional number inside a template literal: undefined
renders as the text undefined. -/
def optNatStr (o : Option Nat) : String :=
  match o with
  | none => "undefined"
  | some n => toString n

/-- Math.round(succ / attempts * 100) of the tcping summary line: division by
an attempts value of zero yields NaN (modelled as none), otherwise the
quotient is exact in the rationals and rounded half toward positive
infinity. -/
def successRatePct (succ : Nat) (attempts : Int) : Option Int :=
  if attempts = 0 then none
  else some ⌊((succ : ℚ) / (attempts : ℚ)) * 100 + 1 / 2⌋

/-- Rendering of the rounded success rate: NaN renders as the text NaN. -/
def renderRate (o : Option Int) : String :=
  match o with
  | none => "NaN"
  | some k => toString k

/-- Per-attempt lines of the handleTcping report (src/index.ts lines 192-198),
rendered with 1-based attempt numbers from the given starting index. -/
def renderAttempts : List ProbeOutcome → Nat → String
  | [], _ => ""
  | r :: rest, i =>
    (if r.success then
      "  Attempt " ++ toString (i + 1) ++ ": Connected - " ++ optNatStr r.responseTime ++ "ms\n"
     else
      "  Attempt " ++ toString (i + 1) ++ ": Failed - " ++ (r.error.getD "undefined") ++ "\n")
      ++ renderAttempts rest (i + 1)

/-- Summary line of the handleTcping report (src/index.ts line 201): the raw
ratio and the rounded percentage, whose denominator is the attempts value. -/
def tcpingSummaryLine (succ : Nat) (attempts : Int) : String :=
  "  Success Rate: " ++ toString succ ++ "/" ++ toString attempts
    ++ " (" ++ renderRate (successRatePct succ attempts) ++ "%)\n"

/-- handleTcping of src/index.ts lines 186-215: runs tcping and renders the
report.  The summary line divides successfulAttempts by the attempts field of
the result, and the response-time line is emitted only when averageTime is
truthy. -/
def handleTcping (host : String) (port : Int) (timeout : Nat) (count : Int)
    (events : Nat → ConnectEvent) : TcpingResult × String :=
  let r := tcping host port timeout count events
  let statsLine :=
    if truthyNat r.averageTime then
      "  Response Times: min=" ++ optNatStr r.minTime ++ "ms, avg=" ++ optNatStr r.averageTime
        ++ "ms, max=" ++ optNatStr r.maxTime ++ "ms\n"
    else ""
  let output :=
    "TCPING " ++ host ++ ":" ++ toString port ++ "\n" ++ "\nResults:\n"
      ++ renderAttempts r.results 0 ++ "\nSummary:\n"
      ++ tcpingSummaryLine r.successfulAttempts r.attempts
      ++ statsLine
  (r, output)

/-- Firewall rule record of the validate_firewall_rule arguments. -/
structure FirewallRule where
  name : String
  host : String
  port : Int
  expected : Bool
deriving DecidableEq, Repr

/-- Per-rule result record pushed by handleFirewallValidation
(src/index.ts lines 246-255). -/
structure RuleResult where
  name : String
  host : String
  port : Int
  expected : Bool
  actual : Bool
  passed : Bool
  responseTime : Option Nat
  error : Option String
deriving DecidableEq, Repr

/-- Text block emitted for one firewall rule (src/index.ts lines 228-244). -/
def ruleBlock (rule : FirewallRule) (result : ProbeOutcome) : String :=
  let status := if result.success == rule.expected then "✅ PASS" else "❌ FAIL"
  let actualResult := if result.success then "CONNECTED" else "BLOCKED/FAILED"
  let expectedResult := if rule.expected then "CONNECTED" else "BLOCKED"
  "Rule: " ++ rule.name ++ "\n"
    ++ "  Target: " ++ rule.host ++ ":" ++ toString rule.port ++ "\n"
    ++ "  Expected: " ++ expectedResult ++ "\n"
    ++ "  Actual: " ++ actualResult ++ "\n"
    ++ "  Status: " ++ status ++ "\n"
    ++ (if result.success && truthyNat result.responseTime then
          "  Response Time: " ++ optNatStr result.responseTime ++ "ms\n"
        else if !result.success && result.error.isSome then
          "  Error: " ++ (result.error.getD "") ++ "\n"
        else "")
    ++ "\n"

/-- Loop body of handleFirewallValidation (src/index.ts lines 224-256): each
rule triggers exactly one tcpConnect call, whose outcome is given by the
event of its position; rules are processed in input order and each pushes one
RuleResult. -/
def firewallLoop (timeout : Nat) (events : Nat → ConnectEvent) :
    Nat → List FirewallRule → List RuleResult × String
  | _, [] => ([], "")
  | i, rule :: rest =>
    let result := tcpConnect timeout (events i)
    let rr : RuleResult :=
      { name := rule.name, host := rule.host, port := rule.port, expected := rule.expected,
        actual := result.success, passed := (result.success == rule.expected),
        responseTime := result.responseTime, error := result.error }
    let tail := firewallLoop timeout events (i + 1) rest
    (rr :: tail.1, ruleBlock rule result ++ tail.2)

/-- handleFirewallValidation of src/index.ts lines 217-269: runs the rule
loop, then appends the overall summary line.  The source never consults
validateConnection before probing a rule target. -/
def handleFirewallValidation (rules : List FirewallRule) (timeout : Nat)
    (events : Nat → ConnectEvent) : List RuleResult × String :=
  let loop := firewallLoop timeout events 0 rules
  let passedRules := (loop.1.filter (fun r => r.passed)).length
  let output :=
    ("Firewall Rule Validation Results:\n" ++ repeatChar '=' 50 ++ "\n\n" ++ loop.2)
      ++ ("Overall Result: " ++ toString passedRules ++ "/" ++ toString loop.1.length
            ++ " rules passed\n")
  (loop.1, output)

/-- Ports visited by the ascending for loop of handleNetworkScan
(src/index.ts line 278): startPort, startPort + 1, ..., endPort, and no port
at all when startPort exceeds endPort. -/
def portRange (s e : Int) : List Int :=
  (List.range (e + 1 - s).toNat).map (fun (i : Nat) => s + (i : Int))

/-- Loop body of handleNetworkScan (src/index.ts lines 278-285): every listed
port is probed by one tcpConnect call; only successful ports are collected,
each with its response time and an OPEN output line. -/
def scanLoop (timeout : Nat) (events : Int → ConnectEvent) :
    List Int → List (Int × Option Nat) × String
  | [] => ([], "")
  | p :: rest =>
    let result := tcpConnect timeout (events p)
    let tail := scanLoop timeout events rest
    if result.success then
      ((p, result.responseTime) :: tail.1,
        ("Port " ++ toString p ++ ": OPEN (" ++ optNatStr result.responseTime ++ "ms)\n")
          ++ tail.2)
    else tail

/-- Result of handleNetworkScan: the collected open ports, the full list of
probed ports (one tcpConnect call each) and the rendered report. -/
structure ScanOutcome where
  openPorts : List (Int × Option Nat)
  probed : List Int
  output : String
deriving DecidableEq, Repr

/-- handleNetworkScan of src/index.ts lines 271-301.  The source never
consults validateConnection before probing. -/
def handleNetworkScan (host : String) (startPort endPort : Int) (timeout : Nat)
    (events : Int → ConnectEvent) : ScanOutcome :=
  let ports := portRange startPort endPort
  let loop := scanLoop timeout events ports
  let tail :=
    if loop.1.isEmpty then "No open ports found in the specified range.\n"
    else "\nSummary: Found " ++ toString loop.1.length ++ " open ports\n"
  { openPorts := loop.1
    probed := ports
    output :=
      ("Network Scan: " ++ host ++ ":" ++ toString startPort ++ "-" ++ toString endPort
        ++ "\n" ++ repeatChar '=' 50 ++ "\n\n" ++ loop.2) ++ tail }

/-- Specification shape (a) of the validator contract: a 4-octet decimal IPv4,
four dot-separated fields of one to three digits with each value in
[0, 255]. -/
def specIPv4Shape (host : List Char) : Bool :=
  let ps := splitOnChar '.' host
  decide (ps.length = 4) && ps.all (fun p => isOctetStr p && decide (parseDecimal p ≤ 255))

/-- Specification shape (c) of the validator contract: dot-separated labels
each matching the label pattern [A-Za-z0-9]([A-Za-z0-9-]*[A-Za-z0-9])?. -/
def specHostnameShape (host : List Char) : Bool :=
  (splitOnChar '.' host).all isLabelStr

/-- Every dot-separated label of the host is a bare 1-3 digit decimal numeral;
such hosts are screened by the dotted-decimal rules of isValidHost before the
hostname regex is reached. -/
def allSmallNumericParts (host : List Char) : Bool :=
  (splitOnChar '.' host).all isOctetStr

/-- IPv4-shaped string in the sense of the claim about octet screening: a
nonempty string over digits and dots. -/
def ipv4ShapedStr (host : List Char) : Bool :=
  !host.isEmpty && host.all (fun c => isDigitChar c || c == '.')

/-- Response times of the successful attempts that are nonzero; the truthiness
filter of the source keeps exactly these values when every failed outcome
lacks a response time. -/
def succTruthyTimes (l : List ProbeOutcome) : List Nat :=
  ((l.filter (fun r => r.success)).filterMap (fun r => r.responseTime)).filter
    (fun t => !(t == 0))

/-- Expected result list of the firewall evaluator: one RuleResult per rule in
input order, the i-th built from the probe outcome of position i, with
passed equal to the agreement of actual and expected reachability. -/
def enumMapResults (timeout : Nat) (events : Nat → ConnectEvent) :
    Nat → List FirewallRule → List RuleResult
  | _, [] => []
  | i, rule :: rest =>
    { name := rule.name, host := rule.host, port := rule.port, expected := rule.expected,
      actual := (tcpConnect timeout (events i)).success,
      passed := ((tcpConnect timeout (events i)).success == rule.expected),
      responseTime := (tcpConnect timeout (events i)).responseTime,
      error := (tcpConnect timeout (events i)).error }
      :: enumMapResults timeout events (i + 1) rest

theorem splitOnChar_ne_nil (sep : Char) (l : List Char) : splitOnChar sep l ≠ [] := by
  induction l with
  | nil => simp [splitOnChar]
  | cons c rest ih =>
    cases h : splitOnChar sep rest with
    | nil => exact absurd h ih
    | cons hd tl =>
      simp only [splitOnChar, h]
      split <;> simp

theorem mem_of_two_le_length_splitOnChar (sep : Char) (l : List Char)
    (h : 2 ≤ (splitOnChar sep l).length) : sep ∈ l := by
  induction l with
  | nil => simp [splitOnChar] at h
  | cons c rest ih =>
    cases hs : splitOnChar sep rest with
    | nil => exact absurd hs (splitOnChar_ne_nil sep rest)
    | cons hd tl =>
      by_cases hc : c == sep
      · exact List.mem_cons.mpr (Or.inl (eq_of_beq hc).symm)
      · have hrw : splitOnChar sep (c :: rest) = (c :: hd) :: tl := by
          simp only [splitOnChar, hs]
          simp [hc]
        rw [hrw] at h
        simp only [List.length_cons] at h
        have : 2 ≤ (splitOnChar sep rest).length := by
          rw [hs]; simp only [List.length_cons]; omega
        exact List.mem_cons_of_mem c (ih this)

theorem exists_part_of_mem (sep c : Char) (l : List Char)
    (hc : c ∈ l) (hne : ¬c = sep) : ∃ p ∈ splitOnChar sep l, c ∈ p := by
  induction l with
  | nil => simp at hc
  | cons a rest ih =>
    cases hs : splitOnChar sep rest with
    | nil => exact absurd hs (splitOnChar_ne_nil sep rest)
    | cons hd tl =>
      rcases List.mem_cons.mp hc with hca | hcr
      · have ha : ¬(a == sep) = true := by
          intro hb
          exact hne (hca ▸ eq_of_beq hb)
        have hrw : splitOnChar sep (a :: rest) = (a :: hd) :: tl := by
          simp only [splitOnChar, hs]
          simp [ha]
        exact ⟨a :: hd, by rw [hrw]; exact List.mem_cons_self .., by simp [hca]⟩
      · obtain ⟨p, hp, hcp⟩ := ih hcr
        rw [hs] at hp
        by_cases ha : (a == sep) = true
        · have hrw : splitOnChar sep (a :: rest) = [] :: hd :: tl := by
            simp only [splitOnChar, hs]
            simp [ha]
          exact ⟨p, by rw [hrw]; exact List.mem_cons_of_mem _ hp, hcp⟩
        · have hrw : splitOnChar sep (a :: rest) = (a :: hd) :: tl := by
            simp only [splitOnChar, hs]
            simp [ha]
          rcases List.mem_cons.mp hp with hph | hpt
          · exact ⟨a :: hd, by rw [hrw]; exact List.mem_cons_self ..,
              by simp [hph ▸ hcp]⟩
          · exact ⟨p, by rw [hrw]; exact List.mem_cons_of_mem _ hpt, hcp⟩

theorem splitAtFirstEmpty_eq (cs a b : List (List Char))
    (h : splitAtFirstEmpty cs = some (a, b)) : cs = a ++ [] :: b := by
  induction cs generalizing a b with
  | nil => simp [splitAtFirstEmpty] at h
  | cons hd tl ih =>
    by_cases he : hd.isEmpty
    · have hnil : hd = [] := by
        cases hd with
        | nil => rfl
        | cons x xs => simp [List.isEmpty] at he
      simp only [splitAtFirstEmpty, he, if_pos, Option.some.injEq, Prod.mk.injEq] at h
      obtain ⟨ha, hb⟩ := h
      subst ha; subst hb
      simp [hnil]
    · cases hs : splitAtFirstEmpty tl with
      | none =>
        have hred : splitAtFirstEmpty (hd :: tl) = none := by
          simp only [splitAtFirstEmpty, hs]
          rw [if_neg he]
        rw [hred] at h
        exact Option.noConfusion h
      | some ab =>
        obtain ⟨a2, b2⟩ := ab
        have hred : splitAtFirstEmpty (hd :: tl) = some (hd :: a2, b2) := by
          simp only [splitAtFirstEmpty, hs]
          rw [if_neg he]
        rw [hred] at h
        simp only [Option.some.injEq, Prod.mk.injEq] at h
        obtain ⟨ha, hb⟩ := h
        subst hb
        have hih := ih a2 b2 hs
        rw [← ha, hih]
        simp

theorem matchesIpv4Pattern_eq_false_of_mem (host : List Char) (c : Char)
    (hc : c ∈ host) (hd : isDigitChar c = false) (hne : ¬c = '.') :
    matchesIpv4Pattern host = false := by
  cases hm : matchesIpv4Pattern host with
  | false => rfl
  | true =>
    exfalso
    have hall : ∀ p ∈ splitOnChar '.' host, isOctetStr p = true := by
      have := (Bool.and_eq_true ..).mp hm
      exact List.all_eq_true.mp this.2
    obtain ⟨p, hp, hcp⟩ := exists_part_of_mem '.' c host hc hne
    have hoct := hall p hp
    have hdig : ∀ x ∈ p, isDigitChar x = true := by
      simp only [isOctetStr, Bool.and_eq_true] at hoct
      exact List.all_eq_true.mp hoct.2
    rw [hdig c hcp] at hd
    exact absurd hd (by decide)

theorem colon_or_percent_of_matchesIpv6 (host : List Char)
    (h : matchesIpv6Regex host = true) : ':' ∈ host ∨ '%' ∈ host := by
  have hcolon : 2 ≤ (splitOnChar ':' host).length → ':' ∈ host :=
    mem_of_two_le_length_splitOnChar ':' host
  simp only [matchesIpv6Regex, Bool.or_eq_true] at h
  rcases h with ((((((((((h | h) | h) | h) | h) | h) | h) | h) | h) | h) | h) | h
  · left
    apply hcolon
    simp only [ipv6Alt1, Bool.and_eq_true, decide_eq_true_eq] at h
    omega
  · left
    apply hcolon
    unfold ipv6Alt2 at h
    split at h
    · next hsRev heq =>
      have hl : (splitOnChar ':' host).reverse.length = hsRev.length + 2 := by
        rw [heq]; simp
      rw [List.length_reverse] at hl
      omega
    · simp at h
  · left
    apply hcolon
    unfold ipv6MidForm at h
    split at h
    · simp at h
    · next hs gs heq =>
      simp only [Bool.and_eq_true, decide_eq_true_eq] at h
      have := splitAtFirstEmpty_eq _ hs gs heq
      rw [this]
      simp only [List.length_append, List.length_cons]
      omega
  · left
    apply hcolon
    unfold ipv6MidForm at h
    split at h
    · simp at h
    · next hs gs heq =>
      simp only [Bool.and_eq_true, decide_eq_true_eq] at h
      have := splitAtFirstEmpty_eq _ hs gs heq
      rw [this]
      simp only [List.length_append, List.length_cons]
      omega
  · left
    apply hcolon
    unfold ipv6MidForm at h
    split at h
    · simp at h
    · next hs gs heq =>
      simp only [Bool.and_eq_true, decide_eq_true_eq] at h
      have := splitAtFirstEmpty_eq _ hs gs heq
      rw [this]
      simp only [List.length_append, List.length_cons]
      omega
  · left
    apply hcolon
    unfold ipv6MidForm at h
    split at h
    · simp at h
    · next hs gs heq =>
      simp only [Bool.and_eq_true, decide_eq_true_eq] at h
      have := splitAtFirstEmpty_eq _ hs gs heq
      rw [this]
      simp only [List.length_append, List.length_cons]
      omega
  · left
    apply hcolon
    unfold ipv6MidForm at h
    split at h
    · simp at h
    · next hs gs heq =>
      simp only [Bool.and_eq_true, decide_eq_true_eq] at h
      have := splitAtFirstEmpty_eq _ hs gs heq
      rw [this]
      simp only [List.length_append, List.length_cons]
      omega
  · left
    apply hcolon
    unfold ipv6MidForm at h
    split at h
    · simp at h
    · next hs gs heq =>
      simp only [Bool.and_eq_true, decide_eq_true_eq] at h
      have := splitAtFirstEmpty_eq _ hs gs heq
      rw [this]
      simp only [List.length_append, List.length_cons]
      omega
  · left
    apply hcolon
    unfold ipv6Alt9 at h
    split at h
    · next rest heq =>
      rw [heq]
      simp only [List.length_cons]
      omega
    · simp at h
  · right
    unfold ipv6Alt10 at h
    split at h
    · next pre zone heq =>
      apply mem_of_two_le_length_splitOnChar '%' host
      rw [heq]; simp
    · simp at h
  · left
    apply hcolon
    unfold ipv6Alt11 at h
    split at h
    · next rest heq =>
      rw [heq]
      simp only [List.length_cons]
      omega
    · simp at h
  · left
    apply hcolon
    unfold ipv6Alt12 at h
    split at h
    · next hs v4 heq =>
      have := splitAtFirstEmpty_eq _ hs [v4] heq
      rw [this]
      simp only [List.length_append, List.length_cons]
      omega
    · simp at h

theorem foldl_min_le_init (t : List Nat) (a : Nat) : t.foldl Nat.min a ≤ a := by
  induction t generalizing a with
  | nil => exact Nat.le_refl a
  | cons h rest ih =>
    calc List.foldl Nat.min (Nat.min a h) rest ≤ Nat.min a h := ih (Nat.min a h)
    _ ≤ a := Nat.min_le_left a h

theorem init_le_foldl_max (t : List Nat) (a : Nat) : a ≤ t.foldl Nat.max a := by
  induction t generalizing a with
  | nil => exact Nat.le_refl a
  | cons h rest ih =>
    calc a ≤ Nat.max a h := Nat.le_max_left a h
    _ ≤ List.foldl Nat.max (Nat.max a h) rest := ih (Nat.max a h)

theorem mul_foldl_min_le_sum (t : List Nat) (a : Nat) :
    (t.length + 1) * (t.foldl Nat.min a) ≤ a + t.sum := by
  induction t generalizing a with
  | nil => simp
  | cons h rest ih =>
    have hih := ih (Nat.min a h)
    have hm : rest.foldl Nat.min (Nat.min a h) ≤ Nat.min a h := foldl_min_le_init rest _
    have hla : Nat.min a h ≤ a := Nat.min_le_left a h
    have hlh : Nat.min a h ≤ h := Nat.min_le_right a h
    have step3 : ((h :: rest).length + 1) * ((h :: rest).foldl Nat.min a)
        = (rest.length + 1) * (rest.foldl Nat.min (Nat.min a h))
            + rest.foldl Nat.min (Nat.min a h) := by
      simp only [List.length_cons, List.foldl_cons]
      ring
    rw [step3]
    calc (rest.length + 1) * (rest.foldl Nat.min (Nat.min a h))
          + rest.foldl Nat.min (Nat.min a h)
        ≤ (Nat.min a h + rest.sum) + a := Nat.add_le_add hih (Nat.le_trans hm hla)
      _ ≤ a + (h :: rest).sum := by
          simp only [List.sum_cons]
          omega

theorem sum_le_mul_foldl_max (t : List Nat) (a : Nat) :
    a + t.sum ≤ (t.length + 1) * (t.foldl Nat.max a) := by
  induction t generalizing a with
  | nil => simp
  | cons h rest ih =>
    have hih := ih (Nat.max a h)
    have hm : Nat.max a h ≤ rest.foldl Nat.max (Nat.max a h) := init_le_foldl_max rest _
    have hgh : h ≤ Nat.max a h := Nat.le_max_right a h
    have hga : a ≤ Nat.max a h := Nat.le_max_left a h
    have step1 : a + (h :: rest).sum ≤ Nat.max a h + (Nat.max a h + rest.sum) := by
      simp only [List.sum_cons]
      omega
    have step2 : Nat.max a h + (Nat.max a h + rest.sum)
        ≤ rest.foldl Nat.max (Nat.max a h)
            + (rest.length + 1) * (rest.foldl Nat.max (Nat.max a h)) :=
      Nat.add_le_add hm hih
    have step3 : rest.foldl Nat.max (Nat.max a h)
          + (rest.length + 1) * (rest.foldl Nat.max (Nat.max a h))
        = ((h :: rest).length + 1) * ((h :: rest).foldl Nat.max a) := by
      simp only [List.length_cons, List.foldl_cons]
      ring
    rw [← step3]
    exact Nat.le_trans step1 step2

theorem foldMin_mem_le (l : List Nat) (x : Nat) (hx : x ∈ l) : foldMin l ≤ x := by
  cases l with
  | nil => simp at hx
  | cons h t =>
    rcases List.mem_cons.mp hx with h1 | h2
    · subst h1
      exact foldl_min_le_init t x
    · clear hx
      induction t generalizing h with
      | nil => simp at h2
      | cons y t2 ih =>
        rcases List.mem_cons.mp h2 with hy | hmem
        · subst hy
          calc foldMin (h :: x :: t2) = t2.foldl Nat.min (Nat.min h x) := rfl
            _ ≤ Nat.min h x := foldl_min_le_init t2 _
            _ ≤ x := Nat.min_le_right h x
        · exact ih (Nat.min h y) hmem

theorem mem_le_foldMax (l : List Nat) (x : Nat) (hx : x ∈ l) : x ≤ foldMax l := by
  cases l with
  | nil => simp at hx
  | cons h t =>
    rcases List.mem_cons.mp hx with h1 | h2
    · subst h1
      exact init_le_foldl_max t x
    · clear hx
      induction t generalizing h with
      | nil => simp at h2
      | cons y t2 ih =>
        rcases List.mem_cons.mp h2 with hy | hmem
        · subst hy
          calc x ≤ Nat.max h x := Nat.le_max_right h x
            _ ≤ t2.foldl Nat.max (Nat.max h x) := init_le_foldl_max t2 _
            _ = foldMax (h :: x :: t2) := rfl
        · exact ih (Nat.max h y) hmem

theorem length_mul_foldMin_le_sum (l : List Nat) (hne : l ≠ []) :
    l.length * foldMin l ≤ l.sum := by
  cases l with
  | nil => exact absurd rfl hne
  | cons h t =>
    have := mul_foldl_min_le_sum t h
    simpa [foldMin, List.sum_cons, Nat.add_comm] using this

theorem sum_le_length_mul_foldMax (l : List Nat) (hne : l ≠ []) :
    l.sum ≤ l.length * foldMax l := by
  cases l with
  | nil => exact absurd rfl hne
  | cons h t =>
    have := sum_le_mul_foldl_max t h
    simpa [foldMax, List.sum_cons, Nat.add_comm] using this

theorem jsRoundDiv_lower (S L mn : Nat) (hL : 0 < L) (h : L * mn ≤ S) :
    mn ≤ jsRoundDiv S L := by
  rw [jsRoundDiv, Nat.le_div_iff_mul_le (by omega : 0 < 2 * L)]
  have h2 : 2 * (L * mn) ≤ 2 * S := Nat.mul_le_mul_left 2 h
  have h3 : mn * (2 * L) = 2 * (L * mn) := by ring
  omega

theorem jsRoundDiv_upper (S L mx : Nat) (hL : 0 < L) (h : S ≤ L * mx) :
    jsRoundDiv S L ≤ mx := by
  have hlt : jsRoundDiv S L < mx + 1 := by
    rw [jsRoundDiv, Nat.div_lt_iff_lt_mul (by omega : 0 < 2 * L)]
    have h2 : 2 * S ≤ 2 * (L * mx) := Nat.mul_le_mul_left 2 h
    have h3 : (mx + 1) * (2 * L) = 2 * (L * mx) + 2 * L := by ring
    omega
  omega

theorem tcpConnect_wf (timeout : Nat) (ev : ConnectEvent) :
    (tcpConnect timeout ev).success = false → (tcpConnect timeout ev).responseTime = none := by
  cases ev <;> simp [tcpConnect]

theorem tcpConnect_success_iff (timeout : Nat) (ev : ConnectEvent) :
    (tcpConnect timeout ev).success = true ↔ (tcpConnect timeout ev).responseTime.isSome = true := by
  cases ev <;> simp [tcpConnect]

theorem responseTimes_eq_succTruthyTimes (l : List ProbeOutcome)
    (h : ∀ r ∈ l, r.success = false → r.responseTime = none) :
    (l.filter (fun r => truthyNat r.responseTime)).map (fun r => r.responseTime.getD 0)
      = succTruthyTimes l := by
  induction l with
  | nil => simp [succTruthyTimes]
  | cons r rest ih =>
    have hr := h r (List.mem_cons_self ..)
    have ih2 := ih (fun x hx => h x (List.mem_cons_of_mem r hx))
    obtain ⟨s, rt, er⟩ := r
    cases s with
    | false =>
      have hn : rt = none := by simpa using hr rfl
      subst hn
      simpa [succTruthyTimes, truthyNat] using ih2
    | true =>
      cases rt with
      | none => simpa [succTruthyTimes, truthyNat] using ih2
      | some n =>
        cases n with
        | zero => simpa [succTruthyTimes, truthyNat] using ih2
        | succ m => simpa [succTruthyTimes, truthyNat] using ih2

theorem tcping_results_wf (host : String) (port : Int) (timeout : Nat) (count : Int)
    (events : Nat → ConnectEvent) :
    ∀ r ∈ (tcping host port timeout count events).results,
      r.success = false → r.responseTime = none := by
  intro r hr
  simp only [tcping, List.mem_map] at hr
  obtain ⟨i, _, hi⟩ := hr
  rw [← hi]
  exact tcpConnect_wf timeout (events i)

theorem firewallLoop_fst (timeout : Nat) (events : Nat → ConnectEvent) :
    ∀ (i : Nat) (rules : List FirewallRule),
      (firewallLoop timeout events i rules).1 = enumMapResults timeout events i rules := by
  intro i rules
  induction rules generalizing i with
  | nil => rfl
  | cons rule rest ih =>
    simp only [firewallLoop, enumMapResults]
    exact congrArg _ (ih (i + 1))

theorem enumMapResults_length (timeout : Nat) (events : Nat → ConnectEvent) :
    ∀ (i : Nat) (rules : List FirewallRule),
      (enumMapResults timeout events i rules).length = rules.length := by
  intro i rules
  induction rules generalizing i with
  | nil => rfl
  | cons rule rest ih =>
    simp only [enumMapResults, List.length_cons]
    exact congrArg _ (ih (i + 1))

theorem scanLoop_fst (timeout : Nat) (events : Int → ConnectEvent) :
    ∀ ports : List Int,
      (scanLoop timeout events ports).1 = ports.filterMap (fun p =>
        if (tcpConnect timeout (events p)).success then
          some (p, (tcpConnect timeout (events p)).responseTime)
        else none) := by
  intro ports
  induction ports with
  | nil => rfl
  | cons p rest ih =>
    simp only [scanLoop, List.filterMap_cons]
    cases hs : (tcpConnect timeout (events p)).success with
    | false => simp [hs, ih]
    | true => simp [hs, ih]

theorem scanLoop_map_fst (timeout : Nat) (events : Int → ConnectEvent) :
    ∀ ports : List Int,
      ((scanLoop timeout events ports).1).map Prod.fst
        = ports.filter (fun p => (tcpConnect timeout (events p)).success) := by
  intro ports
  induction ports with
  | nil => rfl
  | cons p rest ih =>
    simp only [scanLoop, List.filter_cons]
    cases hs : (tcpConnect timeout (events p)).success with
    | false => simp [hs, ih]
    | true => simp [hs, ih]

theorem mem_portRange (s e p : Int) : p ∈ portRange s e ↔ s ≤ p ∧ p ≤ e := by
  simp only [portRange, List.mem_map, List.mem_range]
  constructor
  · rintro ⟨i, hi, rfl⟩
    omega
  · rintro ⟨h1, h2⟩
    exact ⟨(p - s).toNat, by omega, by omega⟩

theorem portRange_pairwise (s e : Int) : (portRange s e).Pairwise (· < ·) := by
  exact List.Pairwise.map _ (fun a b hab => by omega) (List.pairwise_lt_range _)

theorem portRange_eq_nil_iff (s e : Int) : portRange s e = [] ↔ e < s := by
  simp only [portRange, List.map_eq_nil_iff, List.range_eq_nil]
  omega

example : isValidHost "192.168.1.1" = true := by decide
example : isValidHost "300.0.0.1" = false := by decide
example : isValidHost "192.168.1" = false := by decide
example : isValidHost "192.168.1.1.1" = false := by decide
example : isValidHost "localhost" = true := by decide
example : isValidHost "sub-domain.example.com" = true := by decide
example : isValidHost "example..com" = false := by decide
example : isValidHost "-example.com" = false := by decide
example : isValidHost "example-.com" = false := by decide
example : isValidHost "" = false := by decide
example : isValidHost "::1" = true := by decide
example : isValidHost "2001:db8::1" = true := by decide
example : isValidHost "1:2:3:4:5:6:7:8" = true := by decide
example : isValidHost "fe80::1%eth0" = true := by decide
example : isValidHost "::ffff:192.0.2.1" = true := by decide
example : isValidHost "1::" = true := by decide
example : isValidHost ":::" = false := by decide
example : validateConnection "example.com" 443 = { isValid := true, error := none } := by decide
example : validateConnection "" 80 =
    { isValid := false, error := some "Host must be a non-empty string" } := by decide
example : validateConnection "300.0.0.1" 80 =
    { isValid := false, error := some "Invalid hostname or IP address format" } := by decide
example : validateConnection "example.com" 0 =
    { isValid := false, error := some "Port must be an integer between 1 and 65535" } := by decide

/-- C9: every single-probe outcome has its error message set and its response
time absent exactly on failure, its response time set and its error absent on
success, and the timeout resolution carries exactly the message Connection
timeout after the timeout value followed by ms. -/
theorem tcpConnect_outcome_shape (timeout : Nat) (ev : ConnectEvent) :
    ((tcpConnect timeout ev).success = true →
      (tcpConnect timeout ev).responseTime.isSome = true ∧
        (tcpConnect timeout ev).error = none) ∧
    ((tcpConnect timeout ev).success = false →
      (tcpConnect timeout ev).error.isSome = true ∧
        (tcpConnect timeout ev).responseTime = none) ∧
    (tcpConnect timeout ConnectEvent.timedOut).error
      = some ("Connection timeout after " ++ toString timeout ++ "ms") := by
  cases ev <;> simp [tcpConnect]

/-- Witness for C9 at timeout 100: the timeout outcome carries exactly the
message Connection timeout after 100ms. -/
theorem tcpConnect_outcome_shape_witness :
    (tcpConnect 100 ConnectEvent.timedOut).error = some "Connection timeout after 100ms" := by
  have h := (tcpConnect_outcome_shape 100 ConnectEvent.timedOut).2.2
  rw [h]
  decide

/-- C1: contrary to the claim, tcping (src/utils/tcp.ts) never consults the
validator.  On the invalid target of the empty host and port 80 with count 2
it still performs two Connector calls (two perAttempt entries) and reports
attempts = 2, although validateConnection rejects that target before any
probe. -/
theorem tcping_skips_validation_eval :
    (validateConnection "" 80).isValid = false ∧
    (validateConnection "" 80).error = some "Host must be a non-empty string" ∧
    (tcping "" 80 3000 2 (fun _ => ConnectEvent.timedOut)).results.length = 2 ∧
    (tcping "" 80 3000 2 (fun _ => ConnectEvent.timedOut)).attempts = 2 ∧
    (tcping "" 80 3000 2 (fun _ => ConnectEvent.timedOut)).successfulAttempts = 0 := by
  decide

/-- C2: contrary to the claim, the firewall evaluator and the port scanner
(src/index.ts) never consult the validator.  A rule whose host is the empty
string still triggers one Connector call, whose timeout message even appears
in the rule result, and a scan of the empty host over the range from 1 to 1
still probes port 1, although validateConnection rejects both targets. -/
theorem handlers_skip_validation_eval :
    (validateConnection "" 80).error = some "Host must be a non-empty string" ∧
    ((handleFirewallValidation [{ name := "SSH", host := "", port := 80, expected := false }]
        3000 (fun _ => ConnectEvent.timedOut)).1).length = 1 ∧
    ((handleFirewallValidation [{ name := "SSH", host := "", port := 80, expected := false }]
        3000 (fun _ => ConnectEvent.timedOut)).1).map (fun r => r.error)
      = [some "Connection timeout after 3000ms"] ∧
    (handleNetworkScan "" 1 1 1000 (fun _ => ConnectEvent.timedOut)).probed = [1] := by
  decide

/-- C6: the code accepts the IPv4-shaped string 1111.2.3.4 through the
hostname fallback although its first octet value 1111 exceeds 255, so the
claimed rejection of digits-and-dots strings with an out-of-range octet fails
on it. -/
theorem isValidHost_octet_overflow_eval :
    ipv4ShapedStr "1111.2.3.4".data = true ∧
    (splitOnChar '.' "1111.2.3.4".data).length = 4 ∧
    (splitOnChar '.' "1111.2.3.4".data).map parseDecimal = [1111, 2, 3, 4] ∧
    isValidHost "1111.2.3.4" = true := by
  decide

/-- C3 counterexample: with a single successful probe measured at 0 ms the
aggregate has successfulAttempts = 1 > 0 yet carries no statistics, because
the truthiness filter of the source drops the 0 ms response time; this
falsifies the claimed presence of statistics exactly when
successfulAttempts > 0. -/
theorem tcping_stats_zero_ms_counterexample :
    (tcping "example.com" 80 3000 1 (fun _ => ConnectEvent.connected 0)).successfulAttempts = 1 ∧
    (tcping "example.com" 80 3000 1 (fun _ => ConnectEvent.connected 0)).success = true ∧
    (tcping "example.com" 80 3000 1 (fun _ => ConnectEvent.connected 0)).averageTime = none ∧
    (tcping "example.com" 80 3000 1 (fun _ => ConnectEvent.connected 0)).minTime = none ∧
    (tcping "example.com" 80 3000 1 (fun _ => ConnectEvent.connected 0)).maxTime = none := by
  decide

/-- C4 counterexample: two successful probes measured at 0 ms and 10 ms give
statistics computed over the nonzero times only, so averageMs is 10 and not
the rounded arithmetic mean 5 of the successful attempts response times,
falsifying the claimed characterization of averageMs. -/
theorem tcping_average_counterexample :
    ((tcping "example.com" 80 3000 2
        (fun i => if i == 0 then ConnectEvent.connected 0 else ConnectEvent.connected 10)).results.filter
          (fun r => r.success)).filterMap (fun r => r.responseTime) = [0, 10] ∧
    (tcping "example.com" 80 3000 2
        (fun i => if i == 0 then ConnectEvent.connected 0 else ConnectEvent.connected 10)).minTime
      = some 10 ∧
    (tcping "example.com" 80 3000 2
        (fun i => if i == 0 then ConnectEvent.connected 0 else ConnectEvent.connected 10)).maxTime
      = some 10 ∧
    jsRoundDiv (List.sum [0, 10]) (List.length [0, 10]) = 5 ∧
    (tcping "example.com" 80 3000 2
        (fun i => if i == 0 then ConnectEvent.connected 0 else ConnectEvent.connected 10)).averageTime
      = some 10 ∧
    (tcping "example.com" 80 3000 2
        (fun i => if i == 0 then ConnectEvent.connected 0 else ConnectEvent.connected 10)).averageTime
      ≠ some (jsRoundDiv (List.sum [0, 10]) (List.length [0, 10])) := by
  decide

/-- C5 counterexample: the host 123.45 consists of dot-separated labels each
matching the hostname label pattern and the port 80 is in range, yet
validateConnection rejects the pair through the incomplete-IPv4 screening,
falsifying the claim for shape (c) as stated. -/
theorem validateConnection_hostname_counterexample :
    specHostnameShape "123.45".data = true ∧
    (1 ≤ (80 : Int) ∧ (80 : Int) ≤ 65535) ∧
    (validateConnection "123.45" 80).isValid = false ∧
    (validateConnection "123.45" 80).error = some "Invalid hostname or IP address format" := by
  decide

/-- C7: the firewall evaluator produces one result per rule in input order,
the i-th built from the i-th probe, with passed equal to the boolean equality
of the actual and the expected reachability (see enumMapResults), and the
rendered report ends with the summary line counting passed rules over total
rules. -/
theorem firewall_results_characterization (rules : List FirewallRule) (timeout : Nat)
    (events : Nat → ConnectEvent) :
    (handleFirewallValidation rules timeout events).1 = enumMapResults timeout events 0 rules ∧
    (handleFirewallValidation rules timeout events).1.length = rules.length ∧
    ∃ pre,
      (handleFirewallValidation rules timeout events).2
        = pre ++ ("Overall Result: "
            ++ toString (((handleFirewallValidation rules timeout events).1.filter
                  (fun r => r.passed)).length)
            ++ "/" ++ toString (handleFirewallValidation rules timeout events).1.length
            ++ " rules passed\n") := by
  refine ⟨firewallLoop_fst timeout events 0 rules, ?_, ?_⟩
  · have h1 : (handleFirewallValidation rules timeout events).1
        = enumMapResults timeout events 0 rules := firewallLoop_fst timeout events 0 rules
    rw [h1]
    exact enumMapResults_length timeout events 0 rules
  · exact ⟨"Firewall Rule Validation Results:\n" ++ repeatChar '=' 50 ++ "\n\n"
      ++ (firewallLoop timeout events 0 rules).2, rfl⟩

/-- C8: the scanner probes exactly the ports of the inclusive ascending range
from startPort to endPort, collects as openPorts exactly the ports whose
probe succeeded in the same ascending order (a sublist of the range), and a
range with startPort exceeding endPort probes nothing. -/
theorem network_scan_range (host : String) (s e : Int) (timeout : Nat)
    (events : Int → ConnectEvent) :
    (handleNetworkScan host s e timeout events).probed = portRange s e ∧
    (∀ p : Int, p ∈ (handleNetworkScan host s e timeout events).probed ↔ s ≤ p ∧ p ≤ e) ∧
    (handleNetworkScan host s e timeout events).probed.Pairwise (· < ·) ∧
    ((handleNetworkScan host s e timeout events).openPorts).map Prod.fst
      = (handleNetworkScan host s e timeout events).probed.filter
          (fun p => (tcpConnect timeout (events p)).success) ∧
    (((handleNetworkScan host s e timeout events).openPorts).map Prod.fst).Pairwise (· < ·) ∧
    (handleNetworkScan host s e timeout events).openPorts
      = (handleNetworkScan host s e timeout events).probed.filterMap (fun p =>
          if (tcpConnect timeout (events p)).success then
            some (p, (tcpConnect timeout (events p)).responseTime)
          else none) ∧
    (e < s ↔ (handleNetworkScan host s e timeout events).probed = []) := by
  refine ⟨rfl, fun p => mem_portRange s e p, portRange_pairwise s e, ?_, ?_, ?_, ?_⟩
  · exact scanLoop_map_fst timeout events (portRange s e)
  · have hmap : ((handleNetworkScan host s e timeout events).openPorts).map Prod.fst
        = (portRange s e).filter (fun p => (tcpConnect timeout (events p)).success) :=
      scanLoop_map_fst timeout events (portRange s e)
    rw [hmap]
    exact List.Pairwise.sublist (List.filter_sublist _) (portRange_pairwise s e)
  · exact scanLoop_fst timeout events (portRange s e)
  · exact (portRange_eq_nil_iff s e).symm

/-- Witness for C8 at the degenerate range from 20 down to 19: no port is
probed and no port is reported open. -/
theorem network_scan_range_witness :
    (handleNetworkScan "h" 20 19 1000 (fun _ => ConnectEvent.timedOut)).probed = [] ∧
    (handleNetworkScan "h" 20 19 1000 (fun _ => ConnectEvent.timedOut)).openPorts = [] := by
  have h := network_scan_range "h" 20 19 1000 (fun _ => ConnectEvent.timedOut)
  have hprobed : (handleNetworkScan "h" 20 19 1000 (fun _ => ConnectEvent.timedOut)).probed = [] :=
    h.2.2.2.2.2.2.mp (by decide)
  refine ⟨hprobed, ?_⟩
  rw [h.2.2.2.2.2.1, hprobed]
  rfl

theorem tcping_statistics_eq (host : String) (port : Int) (timeout : Nat) (count : Int)
    (events : Nat → ConnectEvent) :
    (tcping host port timeout count events).averageTime
      = (if succTruthyTimes (tcping host port timeout count events).results = [] then none
         else some (jsRoundDiv
             (succTruthyTimes (tcping host port timeout count events).results).sum
             (succTruthyTimes (tcping host port timeout count events).results).length)) ∧
    (tcping host port timeout count events).minTime
      = (if succTruthyTimes (tcping host port timeout count events).results = [] then none
         else some (foldMin (succTruthyTimes (tcping host port timeout count events).results))) ∧
    (tcping host port timeout count events).maxTime
      = (if succTruthyTimes (tcping host port timeout count events).results = [] then none
         else some (foldMax (succTruthyTimes (tcping host port timeout count events).results))) := by
  have hwf := tcping_results_wf host port timeout count events
  have heq := responseTimes_eq_succTruthyTimes (tcping host port timeout count events).results hwf
  by_cases hemp : succTruthyTimes (tcping host port timeout count events).results = []
  · have hlen : (((tcping host port timeout count events).results.filter
        (fun r => truthyNat r.responseTime)).map (fun r => r.responseTime.getD 0)).length = 0 := by
      rw [heq, hemp]
      rfl
    have hnot : ¬(0 < (((tcping host port timeout count events).results.filter
        (fun r => truthyNat r.responseTime)).map (fun r => r.responseTime.getD 0)).length) := by
      omega
    refine ⟨?_, ?_, ?_⟩ <;>
      · show (if 0 < (((tcping host port timeout count events).results.filter
            (fun r => truthyNat r.responseTime)).map (fun r => r.responseTime.getD 0)).length
           then _ else none) = _
        rw [if_neg hnot, if_pos hemp]
  · have hlen : 0 < (((tcping host port timeout count events).results.filter
        (fun r => truthyNat r.responseTime)).map (fun r => r.responseTime.getD 0)).length := by
      rw [heq]
      exact List.length_pos.mpr hemp
    refine ⟨?_, ?_, ?_⟩
    · show (if 0 < (((tcping host port timeout count events).results.filter
          (fun r => truthyNat r.responseTime)).map (fun r => r.responseTime.getD 0)).length
         then some (jsRoundDiv (((tcping host port timeout count events).results.filter
             (fun r => truthyNat r.responseTime)).map (fun r => r.responseTime.getD 0)).sum
           (((tcping host port timeout count events).results.filter
             (fun r => truthyNat r.responseTime)).map (fun r => r.responseTime.getD 0)).length)
         else none) = _
      rw [if_pos hlen, if_neg hemp, heq]
    · show (if 0 < (((tcping host port timeout count events).results.filter
          (fun r => truthyNat r.responseTime)).map (fun r => r.responseTime.getD 0)).length
         then some (foldMin (((tcping host port timeout count events).results.filter
             (fun r => truthyNat r.responseTime)).map (fun r => r.responseTime.getD 0)))
         else none) = _
      rw [if_pos hlen, if_neg hemp, heq]
    · show (if 0 < (((tcping host port timeout count events).results.filter
          (fun r => truthyNat r.responseTime)).map (fun r => r.responseTime.getD 0)).length
         then some (foldMax (((tcping host port timeout count events).results.filter
             (fun r => truthyNat r.responseTime)).map (fun r => r.responseTime.getD 0)))
         else none) = _
      rw [if_pos hlen, if_neg hemp, heq]

/-- C3 (amended): the aggregate statistics of tcping are present exactly when
some attempt recorded a truthy (nonzero) response time — equivalently, since
failed probes never carry a response time, when some successful attempt
measured a nonzero time — and each statistic is computed over precisely those
response times: the average as the rounded mean, the minimum and maximum as
the fold of Math.min and Math.max over the same set. -/
theorem tcping_statistics_characterization (host : String) (port : Int) (timeout : Nat)
    (count : Int) (events : Nat → ConnectEvent) :
    ((tcping host port timeout count events).averageTime.isSome = true ↔
      succTruthyTimes (tcping host port timeout count events).results ≠ []) ∧
    ((tcping host port timeout count events).minTime.isSome = true ↔
      succTruthyTimes (tcping host port timeout count events).results ≠ []) ∧
    ((tcping host port timeout count events).maxTime.isSome = true ↔
      succTruthyTimes (tcping host port timeout count events).results ≠ []) ∧
    (tcping host port timeout count events).averageTime
      = (if succTruthyTimes (tcping host port timeout count events).results = [] then none
         else some (jsRoundDiv
             (succTruthyTimes (tcping host port timeout count events).results).sum
             (succTruthyTimes (tcping host port timeout count events).results).length)) ∧
    (tcping host port timeout count events).minTime
      = (if succTruthyTimes (tcping host port timeout count events).results = [] then none
         else some (foldMin (succTruthyTimes (tcping host port timeout count events).results))) ∧
    (tcping host port timeout count events).maxTime
      = (if succTruthyTimes (tcping host port timeout count events).results = [] then none
         else some (foldMax (succTruthyTimes (tcping host port timeout count events).results))) := by
  obtain ⟨havg, hmin, hmax⟩ := tcping_statistics_eq host port timeout count events
  by_cases hemp : succTruthyTimes (tcping host port timeout count events).results = []
  · rw [havg, hmin, hmax, if_pos hemp]
    simp [hemp]
  · rw [havg, hmin, hmax, if_neg hemp]
    simp [hemp]

/-- C4 (amended): whenever the three statistics are present they satisfy
minMs ≤ averageMs ≤ maxMs; the three are computed over the successful
attempts with truthy (nonzero) response times, the average being the mean of
that set rounded half up. -/
theorem tcping_stats_ordered (host : String) (port : Int) (timeout : Nat) (count : Int)
    (events : Nat → ConnectEvent) (a mn mx : Nat)
    (ha : (tcping host port timeout count events).averageTime = some a)
    (hmn : (tcping host port timeout count events).minTime = some mn)
    (hmx : (tcping host port timeout count events).maxTime = some mx) :
    mn ≤ a ∧ a ≤ mx := by
  obtain ⟨havg, hmin, hmax⟩ := tcping_statistics_eq host port timeout count events
  rw [havg] at ha
  rw [hmin] at hmn
  rw [hmax] at hmx
  by_cases hemp : succTruthyTimes (tcping host port timeout count events).results = []
  · rw [if_pos hemp] at ha
    exact absurd ha (by simp)
  · rw [if_neg hemp] at ha hmn hmx
    have hpos : 0 < (succTruthyTimes (tcping host port timeout count events).results).length :=
      List.length_pos.mpr hemp
    have h1 := length_mul_foldMin_le_sum (succTruthyTimes
      (tcping host port timeout count events).results) hemp
    have h2 := sum_le_length_mul_foldMax (succTruthyTimes
      (tcping host port timeout count events).results) hemp
    have hlo := jsRoundDiv_lower (succTruthyTimes
        (tcping host port timeout count events).results).sum
      (succTruthyTimes (tcping host port timeout count events).results).length
      (foldMin (succTruthyTimes (tcping host port timeout count events).results)) hpos h1
    have hhi := jsRoundDiv_upper (succTruthyTimes
        (tcping host port timeout count events).results).sum
      (succTruthyTimes (tcping host port timeout count events).results).length
      (foldMax (succTruthyTimes (tcping host port timeout count events).results)) hpos h2
    have ea := Option.some.inj ha
    have emn := Option.some.inj hmn
    have emx := Option.some.inj hmx
    rw [← ea, ← emn, ← emx]
    exact ⟨hlo, hhi⟩

/-- Witness for C4 with two successes at 3 ms and 5 ms: the statistics are 3,
4 and 5, and the ordering holds. -/
theorem tcping_stats_ordered_witness :
    (tcping "h" 1 3000 2
        (fun i => if i == 0 then ConnectEvent.connected 3 else ConnectEvent.connected 5)).minTime
      = some 3 ∧
    (tcping "h" 1 3000 2
        (fun i => if i == 0 then ConnectEvent.connected 3 else ConnectEvent.connected 5)).averageTime
      = some 4 ∧
    (tcping "h" 1 3000 2
        (fun i => if i == 0 then ConnectEvent.connected 3 else ConnectEvent.connected 5)).maxTime
      = some 5 ∧
    (3 ≤ 4 ∧ 4 ≤ 5) :=
  ⟨by decide, by decide, by decide,
    tcping_stats_ordered "h" 1 3000 2
      (fun i => if i == 0 then ConnectEvent.connected 3 else ConnectEvent.connected 5) 4 3 5
      (by decide) (by decide) (by decide)⟩

/-- C10: for a count that is not positive, tcping performs no Connector call,
returns attempts equal to the given count with no success, an empty
perAttempt list and no statistics, and the rendered summary line divides the
zero success count by that same count: the percentage is NaN for count = 0
and 0 for negative count. -/
theorem tcping_nonpositive_count (host : String) (port : Int) (timeout : Nat)
    (events : Nat → ConnectEvent) (count : Int) (hc : count ≤ 0) :
    (tcping host port timeout count events).results = [] ∧
    (tcping host port timeout count events).attempts = count ∧
    (tcping host port timeout count events).successfulAttempts = 0 ∧
    (tcping host port timeout count events).success = false ∧
    (tcping host port timeout count events).averageTime = none ∧
    (tcping host port timeout count events).minTime = none ∧
    (tcping host port timeout count events).maxTime = none ∧
    (handleTcping host port timeout count events).2
      = "TCPING " ++ host ++ ":" ++ toString port ++ "\n" ++ "\nResults:\n"
          ++ renderAttempts [] 0 ++ "\nSummary:\n" ++ tcpingSummaryLine 0 count ++ "" ∧
    (count = 0 → successRatePct 0 count = none) ∧
    (count < 0 → successRatePct 0 count = some 0) := by
  have h0 : count.toNat = 0 := Int.toNat_of_nonpos hc
  have hr : tcping host port timeout count events =
      { host := host, port := port, success := false, attempts := count,
        successfulAttempts := 0, averageTime := none, minTime := none, maxTime := none,
        results := [] } := by
    simp [tcping, h0]
  refine ⟨by rw [hr], by rw [hr], by rw [hr], by rw [hr], by rw [hr], by rw [hr], by rw [hr],
    ?_, ?_, ?_⟩
  · show ("TCPING " ++ host ++ ":" ++ toString port ++ "\n" ++ "\nResults:\n"
        ++ renderAttempts (tcping host port timeout count events).results 0 ++ "\nSummary:\n"
        ++ tcpingSummaryLine (tcping host port timeout count events).successfulAttempts
            (tcping host port timeout count events).attempts
        ++ (if truthyNat (tcping host port timeout count events).averageTime then
              "  Response Times: min="
                ++ optNatStr (tcping host port timeout count events).minTime ++ "ms, avg="
                ++ optNatStr (tcping host port timeout count events).averageTime ++ "ms, max="
                ++ optNatStr (tcping host port timeout count events).maxTime ++ "ms\n"
            else "")) = _
    rw [hr]
    simp [truthyNat]
  · intro hz
    simp [successRatePct, hz]
  · intro hneg
    have hne : ¬count = 0 := by omega
    simp only [successRatePct, if_neg hne, Nat.cast_zero, zero_div, zero_mul, zero_add,
      Option.some.injEq]
    rw [Int.floor_eq_zero_iff]
    constructor <;> norm_num

/-- Witness for C10 at count = -1: no probe, attempts = -1 and a rendered
percentage of 0 obtained by dividing 0 by -1. -/
theorem tcping_nonpositive_count_witness :
    (-1 : Int) ≤ 0 ∧
    (tcping "h" 1 3000 (-1) (fun _ => ConnectEvent.timedOut)).results = [] ∧
    (tcping "h" 1 3000 (-1) (fun _ => ConnectEvent.timedOut)).attempts = -1 ∧
    successRatePct 0 (-1) = some 0 :=
  ⟨by decide,
    (tcping_nonpositive_count "h" 1 3000 (fun _ => ConnectEvent.timedOut) (-1) (by decide)).1,
    (tcping_nonpositive_count "h" 1 3000 (fun _ => ConnectEvent.timedOut) (-1) (by decide)).2.1,
    (tcping_nonpositive_count "h" 1 3000 (fun _ => ConnectEvent.timedOut) (-1)
        (by decide)).2.2.2.2.2.2.2.2.2 (by decide)⟩

theorem isValidHostL_of_shapes (host : List Char)
    (h : specIPv4Shape host = true ∨ matchesIpv6Regex host = true ∨
      (specHostnameShape host = true ∧ allSmallNumericParts host = false)) :
    isValidHostL host = true ∧ host.isEmpty = false := by
  rcases h with ha | hb | ⟨hc1, hc2⟩
  · simp only [specIPv4Shape, Bool.and_eq_true, decide_eq_true_eq, List.all_eq_true] at ha
    obtain ⟨hlen, hall⟩ := ha
    have hEmpty : host.isEmpty = false := by
      cases host with
      | nil => simp [splitOnChar] at hlen
      | cons c rest => rfl
    have hipv4 : matchesIpv4Pattern host = true := by
      simp only [matchesIpv4Pattern, Bool.and_eq_true, decide_eq_true_eq, List.all_eq_true]
      exact ⟨hlen, fun p hp => (hall p hp).1⟩
    have hcheck : ipv4OctetsCheck host = true := by
      simp only [ipv4OctetsCheck, hlen, decide_True, Bool.not_true, Bool.false_eq_true,
        if_false, List.all_eq_true, decide_eq_true_eq]
      intro p hp
      exact (hall p hp).2
    refine ⟨?_, hEmpty⟩
    simp [isValidHostL, hEmpty, hipv4, hcheck]
  · have hcp := colon_or_percent_of_matchesIpv6 host hb
    have hne : host ≠ [] := by
      rcases hcp with hc | hc <;> exact List.ne_nil_of_mem hc
    have hEmpty : host.isEmpty = false := by
      cases host with
      | nil => exact absurd rfl hne
      | cons c rest => rfl
    have hipv4 : matchesIpv4Pattern host = false := by
      rcases hcp with hc | hc
      · exact matchesIpv4Pattern_eq_false_of_mem host ':' hc (by decide) (by decide)
      · exact matchesIpv4Pattern_eq_false_of_mem host '%' hc (by decide) (by decide)
    refine ⟨?_, hEmpty⟩
    simp [isValidHostL, hEmpty, hipv4, hb]
  · have hne : host ≠ [] := by
      intro contra
      subst contra
      exact absurd hc1 (by decide)
    have hEmpty : host.isEmpty = false := by
      cases host with
      | nil => exact absurd rfl hne
      | cons c rest => rfl
    have hoct : (splitOnChar '.' host).all isOctetStr = false := hc2
    have hipv4 : matchesIpv4Pattern host = false := by
      cases hm : matchesIpv4Pattern host with
      | false => rfl
      | true =>
        exfalso
        have := ((Bool.and_eq_true ..).mp hm).2
        rw [this] at hoct
        exact Bool.noConfusion hoct
    have hinc : incompleteIpv4Check host = false := by
      simp only [incompleteIpv4Check, hoct]
      rfl
    have htoo : tooManyOctetsCheck host = false := by
      simp only [tooManyOctetsCheck, hoct]
      rfl
    have hhostname : matchesHostnameRegex host = true := hc1
    refine ⟨?_, hEmpty⟩
    cases hv6 : matchesIpv6Regex host with
    | true => simp [isValidHostL, hEmpty, hipv4, hv6]
    | false => simp [isValidHostL, hEmpty, hipv4, hv6, hinc, htoo, hhostname]

/-- C5 (amended): validateConnection accepts every pair of a host of one of
the three accepted shapes and an integer port in [1, 65535], where the
hostname shape (c) is restricted to hosts having at least one label that is
not a bare 1-3 digit decimal numeral; all-numeric dotted strings are governed
by the IPv4 rule (a) instead, the dotted-decimal screening of isValidHost
rejecting the rest of them. -/
theorem validateConnection_accepts_valid (host : String) (port : Int)
    (hhost : specIPv4Shape host.data = true ∨ matchesIpv6Regex host.data = true ∨
      (specHostnameShape host.data = true ∧ allSmallNumericParts host.data = false))
    (hport : 1 ≤ port ∧ port ≤ 65535) :
    validateConnection host port = { isValid := true, error := none } := by
  obtain ⟨hvalid, hEmpty⟩ := isValidHostL_of_shapes host.data hhost
  have hhostS : isValidHost host = true := hvalid
  have hportS : isValidPort port = true := by
    simp [isValidPort, hport.1, hport.2]
  simp [validateConnection, hEmpty, hhostS, hportS]

/-- Witness for C5 at the hostname example.com and port 443: the pair is
accepted. -/
theorem validateConnection_accepts_valid_witness :
    (specHostnameShape "example.com".data = true ∧
      allSmallNumericParts "example.com".data = false) ∧
    (1 ≤ (443 : Int) ∧ (443 : Int) ≤ 65535) ∧
    validateConnection "example.com" 443 = { isValid := true, error := none } :=
  ⟨by decide, by decide,
    validateConnection_accepts_valid "example.com" 443 (Or.inr (Or.inr (by decide)))
      (by decide)⟩

end TcpingMcp
